import Mathlib

/-!
# Verification of the ascii-art converter core

Shallow embedding of the conversion and color-quantization pipeline of the
`ascii-art` CLI (sources under `src/`): width resolution (`terminal.rs`),
brightness and edge character mapping (`ascii_converter.rs`,
`edge_detector.rs`), ANSI color quantization and rendering (`renderer.rs`),
image preprocessing (`image_loader.rs`) and the pipeline dispatch
(`main.rs`).

Machine integers (`u8`, `u32`, `usize`) are modelled as `Nat`; the only
arithmetic where wrap/saturation matters is `u32::saturating_sub` (which is
`Nat` subtraction) and the saturating `as u32` float cast (modelled
explicitly).  32-bit IEEE-754 floating point is modelled exactly over `ℚ`
by `roundF32`, a round-to-nearest-even operation applied after every
arithmetic operation, which is how IEEE defines `f32` arithmetic for
operands in the normal range (all intermediate values in this program's
domain are far from overflow and subnormal territory).
-/

namespace AsciiArt

/-! ## Width resolver (`src/terminal.rs`) -/

/-- `WidthSource` from `terminal.rs`: how the final output width was decided. -/
inductive WidthSource
  | User
  | AutoDetected
  | Fallback
deriving DecidableEq, Repr

/-- `WidthResolution` from `terminal.rs`. -/
structure WidthResolution where
  width : Nat
  source : WidthSource
deriving DecidableEq, Repr

/-- `apply_margin` from `terminal.rs`: `width.saturating_sub(2)`.  `Nat`
subtraction is saturating, exactly like `u32::saturating_sub`. -/
def apply_margin (width : Nat) : Nat := width - 2

/-- `compute_output_width` from `terminal.rs`. -/
def compute_output_width (user_width detected_width : Option Nat) : WidthResolution :=
  match user_width with
  | some width => ⟨width, WidthSource.User⟩
  | none =>
    let width_with_margin :=
      ((detected_width.map apply_margin).map (fun width => max width 40)).getD 80
    let source :=
      if detected_width.isSome then WidthSource.AutoDetected else WidthSource.Fallback
    ⟨width_with_margin, source⟩

/-! ## Edge mapper (`src/edge_detector.rs`) -/

/-- `edge_to_char` from `edge_detector.rs`. -/
def edge_to_char (edge_value : Nat) : Char :=
  if edge_value = 255 then '#' else ' '

/-! ## IEEE-754 binary32 model

Non-negative `f32` values are represented exactly as a mantissa/exponent
pair `⟨m, e⟩` (value `m * 2 ^ e`, with `2 ^ 23 ≤ m ≤ 2 ^ 24` or `m = 0`).
Each arithmetic operation forms the mathematically exact ratio
`num / den * 2 ^ e` and rounds it to the nearest representable value with
ties to even — which is exactly what IEEE-754 prescribes for `f32`
operations on operands in the normal range, the only range this program's
values (between `1 / u32::MAX` and `u32::MAX`) can reach. -/

/-- A non-negative binary32 value: `m * 2 ^ e`. -/
structure F32 where
  m : Nat
  e : Int
deriving DecidableEq, Repr

/-- Normalize the exact positive value `num / den * 2 ^ e` so that
`2 ^ 23 ≤ num / den < 2 ^ 24`, then round the mantissa to the nearest
integer with ties to even.  Structural recursion on fuel so the kernel can
evaluate it; fuel 300 covers every IEEE binary32 exponent. -/
def f32Round : Nat → Nat → Nat → Int → F32
  | 0, num, _, e => ⟨num, e⟩
  | fuel + 1, num, den, e =>
    if num < 2 ^ 23 * den then f32Round fuel (num * 2) den (e - 1)
    else if 2 ^ 24 * den ≤ num then f32Round fuel num (den * 2) (e + 1)
    else
      let n := num / den
      let r := num % den
      let n2 :=
        if 2 * r < den then n
        else if den < 2 * r then n + 1
        else if n % 2 = 0 then n else n + 1
      ⟨n2, e⟩

/-- `n as f32` (exact for `n < 2 ^ 24`, correctly rounded above). -/
def f32OfNat (n : Nat) : F32 :=
  if n = 0 then ⟨0, 0⟩ else f32Round 300 n 1 0

/-- Correctly rounded `f32` division (non-negative operands). -/
def f32Div (a b : F32) : F32 :=
  if a.m = 0 ∨ b.m = 0 then ⟨0, 0⟩ else f32Round 300 a.m b.m (a.e - b.e)

/-- Correctly rounded `f32` multiplication (non-negative operands). -/
def f32Mul (a b : F32) : F32 :=
  if a.m = 0 ∨ b.m = 0 then ⟨0, 0⟩ else f32Round 300 (a.m * b.m) 1 (a.e + b.e)

/-- `f32::round` (round half away from zero; for the non-negative values
here, `⌊v + 1/2⌋`) followed by a cast to an unsigned integer type; the
result of `f32::round` is always exactly representable, so the combination
is exactly `⌊m * 2 ^ e + 1/2⌋`.  For `e = -(k+1)` this is
`(2 * m + 2 ^ (k+1)) / 2 ^ (k+2)` in natural division. -/
def f32RoundHalfAway (a : F32) : Nat :=
  match a.e with
  | Int.ofNat k => a.m * 2 ^ k
  | Int.negSucc k => (2 * a.m + 2 ^ (k + 1)) / 2 ^ (k + 2)

/-! ## Color quantizer (`src/renderer.rs`) -/

/-- One entry of `ANSI_COLORS` from `renderer.rs`: an RGB reference color
and its foreground escape code (the source uses a 4-tuple
`(u8, u8, u8, &str)`). -/
structure AnsiColor where
  r : Nat
  g : Nat
  b : Nat
  code : String
deriving DecidableEq, Repr

/-- `ANSI_COLORS` from `renderer.rs`: the 16 basic ANSI colors, in
declaration order starting with black. -/
def ANSI_COLORS : List AnsiColor :=
  [⟨0, 0, 0, "\x1b[30m"⟩,
   ⟨128, 0, 0, "\x1b[31m"⟩,
   ⟨0, 128, 0, "\x1b[32m"⟩,
   ⟨128, 128, 0, "\x1b[33m"⟩,
   ⟨0, 0, 128, "\x1b[34m"⟩,
   ⟨128, 0, 128, "\x1b[35m"⟩,
   ⟨0, 128, 128, "\x1b[36m"⟩,
   ⟨192, 192, 192, "\x1b[37m"⟩,
   ⟨128, 128, 128, "\x1b[90m"⟩,
   ⟨255, 0, 0, "\x1b[91m"⟩,
   ⟨0, 255, 0, "\x1b[92m"⟩,
   ⟨255, 255, 0, "\x1b[93m"⟩,
   ⟨0, 0, 255, "\x1b[94m"⟩,
   ⟨255, 0, 255, "\x1b[95m"⟩,
   ⟨0, 255, 255, "\x1b[96m"⟩,
   ⟨255, 255, 255, "\x1b[97m"⟩]

/-- `RESET` from `renderer.rs`. -/
def RESET : String := "\x1b[0m"

/-- The comparison quantity of `rgb_to_ansi` from `renderer.rs`.  The code
compares `((r - ar)^2 + (g - ag)^2 + (b - ab)^2).sqrt()` in `f32`: the
differences (magnitude ≤ 255) and squares (≤ 255² < 2^24) are exact in
`f32`, the sums (≤ 3·255² = 195075 < 2^24) are exact, and `f32::sqrt` is
correctly rounded and monotone; square roots of distinct naturals
≤ 195075 differ by at least `1/(2·√195075) ≈ 1.1e-3`, which is far more
than one ulp (`≈ 3e-5`) at magnitude `√195075 ≈ 441.7`, so the rounded
square roots of distinct sums are distinct and ordered like the sums.
Comparing the exact squared distances is therefore equivalent to the
code's comparison of `f32` square-rooted distances. -/
def dist2 (r g b : Nat) (c : AnsiColor) : ℤ :=
  ((r : ℤ) - c.r) * ((r : ℤ) - c.r) + ((g : ℤ) - c.g) * ((g : ℤ) - c.g) +
    ((b : ℤ) - c.b) * ((b : ℤ) - c.b)

/-- `distance < min_distance`, where `min_distance` is either the initial
`f32::MAX` (represented by `none`, since every distance the scan can
compute is strictly below `f32::MAX`) or an already-computed distance
`some m`. -/
def ltMin (d : ℤ) : Option ℤ → Bool
  | none => true
  | some m => decide (d < m)

/-- The loop body of `rgb_to_ansi` from `renderer.rs`: replace the current
best only on strictly smaller distance. -/
def quantStep (r g b : Nat) (acc : Option ℤ × String) (c : AnsiColor) : Option ℤ × String :=
  if ltMin (dist2 r g b c) acc.1 then (some (dist2 r g b c), c.code) else acc

/-- `rgb_to_ansi` from `renderer.rs`.  `min_distance` starts at `f32::MAX`
(`none`, which every computed distance compares strictly below, exactly as
every achievable `f32` distance is strictly below `f32::MAX`);
`closest_code` starts at `ANSI_COLORS[0].3`. -/
def rgb_to_ansi (r g b : Nat) : String :=
  (ANSI_COLORS.foldl (quantStep r g b) (none, (ANSI_COLORS.getD 0 ⟨0, 0, 0, ""⟩).code)).2

/-! ## Density mapper (`src/ascii_converter.rs`) -/

/-- `CHARSET` from `ascii_converter.rs`. -/
def CHARSET : List Char := [' ', '.', ':', '-', '=', '+', '*', '#', '%', '@']

/-- The index computation of `brightness_to_char` from `ascii_converter.rs`:
`((brightness as f32 / 255.0) * 9.0).round() as usize`, then `.min(9)`.
The division and the multiplication are correctly rounded `f32` operations;
`.round() as usize` is `f32RoundHalfAway`. -/
def brightness_index (brightness : Nat) : Nat :=
  min (f32RoundHalfAway (f32Mul (f32Div (f32OfNat brightness) (f32OfNat 255)) (f32OfNat 9))) 9

/-- `brightness_to_char` from `ascii_converter.rs`: `CHARSET[index.min(9)]`. -/
def brightness_to_char (brightness : Nat) : Char :=
  CHARSET.getD (brightness_index brightness) ' '

/-- The spec's reference index (spec §4.1, for comparison with the code):
normalize brightness to `[0,1]` dividing by 255, scale by 9, round to
nearest half-away-from-zero (for non-negative `q` this is `⌊q + 1/2⌋`),
clamp to `[0,9]` (the lower clamp is inherent in `Nat`). -/
def spec_brightness_index (brightness : Nat) : Nat :=
  min (⌊(brightness : ℚ) / 255 * 9 + 1 / 2⌋).toNat 9

/-! ## Images and grids -/

/-- A grayscale buffer (`image::GrayImage`): dimensions plus a total sample
function (`get_pixel(x, y)[0]`).  Out-of-bounds reads cannot occur in the
verified code paths, so a total function is an adequate model. -/
structure GrayImage where
  width : Nat
  height : Nat
  pixel : Nat → Nat → Nat

/-- A color image (`image::DynamicImage`): dimensions plus a total RGB
sample function (`get_pixel(x, y)` restricted to channels 0..2; alpha is
dropped before quantization, as the renderer only reads `pixel[0..2]`). -/
structure DynamicImage where
  width : Nat
  height : Nat
  pixel : Nat → Nat → Nat × Nat × Nat

/-- `AsciiGrid` from `ascii_converter.rs`: `Vec<Vec<char>>`. -/
abbrev AsciiGrid := List (List Char)

/-! ## Grid conversion (`src/ascii_converter.rs`, `src/edge_detector.rs`) -/

/-- `convert_to_ascii` from `ascii_converter.rs`.  The `for y / for x` push
loops build exactly the row-major grid `(List.range height).map (fun y =>
(List.range width).map (fun x => ...))`.  The error type models Rust's
`Result<AsciiGrid, String>`; on the error branch no grid is produced. -/
def convert_to_ascii (gray : GrayImage) : Except String AsciiGrid :=
  if gray.width = 0 ∨ gray.height = 0 then
    Except.error "Image dimensions must be greater than zero."
  else
    Except.ok ((List.range gray.height).map fun y =>
      (List.range gray.width).map fun x => brightness_to_char (gray.pixel x y))

/-- `detect_and_convert` from `edge_detector.rs`.  `canny` (the external
`imageproc::edges::canny` with the two hardcoded thresholds already
applied) is a parameter: the spec treats edge detection as an external
collaborator specified only at its boundary.  The loops run over the input
image's dimensions and sample the edge map at the same coordinates. -/
def detect_and_convert (canny : GrayImage → GrayImage) (gray : GrayImage) :
    Except String AsciiGrid :=
  if gray.width = 0 ∨ gray.height = 0 then
    Except.error "Image dimensions must be greater than zero."
  else
    let edge_map := canny gray
    Except.ok ((List.range gray.height).map fun y =>
      (List.range gray.width).map fun x => edge_to_char (edge_map.pixel x y))

/-! ## Image loader (`src/image_loader.rs`) -/

/-- `ImageLoaderError` from `image_loader.rs`. -/
inductive ImageLoaderError
  | FileNotFound (path : String)
  | UnsupportedFormat (path : String)
  | InvalidDimensions (message : String)
  | DecodeFailed (message : String)
  | IoError (message : String)
deriving DecidableEq, Repr

/-- The `Display` implementation for `ImageLoaderError`. -/
def ImageLoaderError.display : ImageLoaderError → String
  | ImageLoaderError.FileNotFound path =>
      "Could not find image file \"" ++ path ++ "\"."
  | ImageLoaderError.UnsupportedFormat path =>
      "Unsupported image format for file \"" ++ path ++ "\"."
  | ImageLoaderError.InvalidDimensions message => message
  | ImageLoaderError.DecodeFailed message => message
  | ImageLoaderError.IoError message => message

/-- `ProcessedImage` from `image_loader.rs`. -/
structure ProcessedImage where
  gray : GrayImage
  original : DynamicImage

/-- The target-height computation of `preprocess_image`:
`((original_height as f32 / original_width as f32) * corrected_width as f32
/ 2.0).round().max(1.0) as u32`, with every arithmetic step a correctly
rounded `f32` operation; the final saturating cast to `u32` is
`min · (2 ^ 32 - 1)` (the value is ≥ 1 after `.max(1.0)`, so the negative
saturation case cannot occur). -/
def target_height (original_width original_height corrected_width : Nat) : Nat :=
  let aspect_ratio := f32Div (f32OfNat original_height) (f32OfNat original_width)
  let t := f32Mul aspect_ratio (f32OfNat corrected_width)
  let u := f32Div t (f32OfNat 2)
  min (max (f32RoundHalfAway u) 1) (2 ^ 32 - 1)

/-- The spec's resize-height formula (spec §6, for comparison with the
code): `round(target_width * original_height / original_width / 2)` read
as exact rational arithmetic with round half away from zero. -/
def spec_target_height (original_width original_height target_width : Nat) : ℤ :=
  ⌊(target_width * original_height : ℚ) / original_width / 2 + 1 / 2⌋

/-- `preprocess_image` from `image_loader.rs`.  `resize_exact` (the
external `image::DynamicImage::resize_exact` with `FilterType::Lanczos3`)
and `grayscale` (the external `image::imageops::grayscale`) are
parameters: the spec treats decoding/resampling as external collaborators
specified only at their boundary (their dimension contracts appear as
hypotheses of the theorems).  Both error branches return before the
resize. -/
def preprocess_image (resize_exact : DynamicImage → Nat → Nat → DynamicImage)
    (grayscale : DynamicImage → GrayImage)
    (img : DynamicImage) (target_width : Nat) : Except ImageLoaderError ProcessedImage :=
  if target_width = 0 then
    Except.error (ImageLoaderError.InvalidDimensions
      "Target width must be greater than zero.")
  else if img.width = 0 ∨ img.height = 0 then
    Except.error (ImageLoaderError.InvalidDimensions
      "Input image has invalid dimensions.")
  else
    let corrected_width := target_width
    let th := target_height img.width img.height corrected_width
    let resized := resize_exact img corrected_width th
    Except.ok ⟨grayscale resized, resized⟩

/-! ## Render orchestrator (`src/renderer.rs`) -/

/-- `render_colored` from `renderer.rs`, modelled as the exact character
stream written to the terminal: for each `(y, row)` and each `(x, ch)`,
`print!("{}{}", color_code, ch)`; after each row `println!("{}", RESET)`;
after the loop a final `print!("{}", RESET)`.  (The Rust function returns
`Ok(())` unconditionally; the stream is the observable behavior.) -/
def render_colored (grid : AsciiGrid) (original : DynamicImage) : String :=
  (grid.enum.foldl
    (fun out yrow =>
      (yrow.2.enum.foldl
        (fun out2 xch =>
          let p := original.pixel xch.1 yrow.1
          out2 ++ rgb_to_ansi p.1 p.2.1 p.2.2 ++ xch.2.toString)
        out) ++ RESET ++ "\n")
    "") ++ RESET

/-! ## Pipeline (`src/main.rs`) -/

/-- `Cli` from `main.rs`. -/
structure Cli where
  image_path : String
  width : Option Nat
  mode : String

/-- `run_pipeline` from `main.rs`.  `load_image` (file I/O plus decoding)
is a parameter, like the other external collaborators.  Rust's `match` on
`cli.mode.as_str()` with the literal arms `"edge"`, `"standard"` and a
catch-all is a chain of string-equality tests in declaration order. -/
def run_pipeline (load_image : String → Except ImageLoaderError DynamicImage)
    (resize_exact : DynamicImage → Nat → Nat → DynamicImage)
    (grayscale : DynamicImage → GrayImage)
    (canny : GrayImage → GrayImage)
    (cli : Cli) (width : Nat) : Except String (ProcessedImage × AsciiGrid) :=
  match load_image cli.image_path with
  | Except.error e => Except.error e.display
  | Except.ok image =>
    match preprocess_image resize_exact grayscale image width with
    | Except.error e => Except.error e.display
    | Except.ok processed =>
      if cli.mode = "edge" then
        match detect_and_convert canny processed.gray with
        | Except.error e => Except.error ("Edge detection failed: " ++ e)
        | Except.ok grid => Except.ok (processed, grid)
      else if cli.mode = "standard" then
        match convert_to_ascii processed.gray with
        | Except.error e => Except.error e
        | Except.ok grid => Except.ok (processed, grid)
      else
        Except.error ("Unknown mode '" ++ cli.mode ++ "'. Use 'standard' or 'edge'.")

/-- The exit status of `main` as a function of the pipeline result: on
`Err`, `main` prints the message to stderr and calls
`std::process::exit(1)`; on `Ok` it renders and exits 0 (`render_colored`
always returns `Ok`). -/
def main_exit_code (result : Except String (ProcessedImage × AsciiGrid)) : Nat :=
  match result with
  | Except.ok _ => 0
  | Except.error _ => 1

/-! ## Concrete collaborators and inputs used by witnesses and
counterexamples -/

/-- A 100×1 all-black source image: its aspect-corrected target height at
width 40 would round to 0 without the `.max(1.0)` clamp. -/
def demoImage : DynamicImage := ⟨100, 1, fun _ _ => (0, 0, 0)⟩

/-- A resize collaborator honoring the dimension contract. -/
def demoResize (img : DynamicImage) (w h : Nat) : DynamicImage := ⟨w, h, img.pixel⟩

/-- A grayscale collaborator honoring the dimension contract (red channel). -/
def demoGrayscale (img : DynamicImage) : GrayImage :=
  ⟨img.width, img.height, fun x y => (img.pixel x y).1⟩

/-- A loader that always succeeds with `demoImage`. -/
def demoLoad (_ : String) : Except ImageLoaderError DynamicImage := Except.ok demoImage

/-- An edge-detection collaborator preserving dimensions. -/
def demoCanny (g : GrayImage) : GrayImage := g

/-- A CLI invocation with an unrecognized mode. -/
def demoCli : Cli := ⟨"cat.png", none, "invalid"⟩

/-- The processed image produced by `preprocess_image demoResize
demoGrayscale demoImage 40`. -/
def demoProcessed : ProcessedImage :=
  ⟨demoGrayscale (demoResize demoImage 40 (target_height 100 1 40)),
   demoResize demoImage 40 (target_height 100 1 40)⟩

/-- A 1×1 color source for the rendering witness. -/
def demoColorImage : DynamicImage := ⟨1, 1, fun _ _ => (0, 0, 0)⟩

/-- A 2×1 all-black grayscale buffer for the grid-conversion witness. -/
def demoGray : GrayImage := ⟨2, 1, fun _ _ => 0⟩

section RatComputation

/- `Rat.add`, `Rat.mul`, `Rat.inv` and `Rat.sub` are `@[irreducible]` in
Batteries, which blocks `decide`-style evaluation of concrete rational
arithmetic; make them semireducible locally so concrete instances of the
`f32` model can be evaluated. -/
attribute [local semireducible] Rat.add Rat.mul Rat.inv Rat.sub

set_option maxRecDepth 400000

lemma brightness_index_eq_spec :
    ∀ b : Fin 256, brightness_index b.val = spec_brightness_index b.val := by
  decide

/-- C1: width resolution is a pure three-way decision: a present user
override `w` yields `(w, User)` verbatim; otherwise a detected width `d`
yields width `max (d - 2) 40` (2-character margin, saturating, then floor
40) with provenance `AutoDetected`; otherwise `(80, Fallback)`; including
the four concrete examples from the spec. -/
theorem compute_output_width_spec :
    (∀ w d, compute_output_width (some w) d = ⟨w, WidthSource.User⟩) ∧
    (∀ d, compute_output_width none (some d) = ⟨max (d - 2) 40, WidthSource.AutoDetected⟩) ∧
    compute_output_width none none = ⟨80, WidthSource.Fallback⟩ ∧
    compute_output_width (some 120) (some 100) = ⟨120, WidthSource.User⟩ ∧
    compute_output_width none (some 30) = ⟨40, WidthSource.AutoDetected⟩ ∧
    compute_output_width none (some 100) = ⟨98, WidthSource.AutoDetected⟩ :=
  ⟨fun _ _ => rfl, fun _ => rfl, rfl, rfl, by decide, by decide⟩

/-- C8: the edge mapper is binary: `edge_to_char 255 = '#'` and
`edge_to_char v = ' '` for every `v ≠ 255`, including `v = 0`. -/
theorem edge_to_char_spec :
    edge_to_char 255 = '#' ∧ (∀ v : Nat, v ≠ 255 → edge_to_char v = ' ') ∧
    edge_to_char 0 = ' ' := by
  refine ⟨by decide, fun v hv => ?_, by decide⟩
  unfold edge_to_char
  rw [if_neg hv]

/-- Witness for C8 at the concrete non-edge value 254. -/
theorem edge_to_char_spec_witness : edge_to_char 254 = ' ' :=
  edge_to_char_spec.2.1 254 (by decide)

/-- C4: the code's brightness-to-character mapping agrees with the
reference definition (normalize by 255, scale by 9, round half away from
zero, clamp to `[0,9]`, index the fixed 10-glyph ramp) on its whole `u8`
domain; in particular `0 ↦ ' '`, `255 ↦ '@'`, `127 ↦ '='`. -/
theorem brightness_to_char_matches_reference :
    (∀ b : Fin 256, brightness_to_char b.val = CHARSET.getD (spec_brightness_index b.val) ' ') ∧
    brightness_to_char 0 = ' ' ∧ brightness_to_char 255 = '@' ∧
    brightness_to_char 127 = '=' := by
  refine ⟨fun b => ?_, by decide, by decide, by decide⟩
  unfold brightness_to_char
  rw [brightness_index_eq_spec]

/-- C6: the ramp index chosen by the brightness mapper is monotonically
non-decreasing in brightness over the `u8` domain. -/
theorem brightness_index_monotone :
    ∀ b1 b2 : Fin 256, b1 ≤ b2 → brightness_index b1.val ≤ brightness_index b2.val := by
  intro b1 b2 h
  rw [brightness_index_eq_spec b1, brightness_index_eq_spec b2]
  unfold spec_brightness_index
  have hle : ((b1.val : ℚ)) ≤ (b2.val : ℚ) := by exact_mod_cast Fin.le_def.mp h
  have hfloor : ⌊(b1.val : ℚ) / 255 * 9 + 1 / 2⌋ ≤ ⌊(b2.val : ℚ) / 255 * 9 + 1 / 2⌋ := by
    apply Int.floor_le_floor
    have h9 : (b1.val : ℚ) / 255 * 9 ≤ (b2.val : ℚ) / 255 * 9 := by
      gcongr
    linarith
  exact min_le_min (Int.toNat_le_toNat hfloor) le_rfl

/-- Witness for C6 at the concrete pair 10 ≤ 200. -/
theorem brightness_index_monotone_witness :
    brightness_index 10 ≤ brightness_index 200 :=
  brightness_index_monotone ⟨10, by decide⟩ ⟨200, by decide⟩ (by decide)

/-- The linear scan with strict-`<` replacement selects the first index of
minimal distance: starting from an already-computed best `(some m, c)`,
either nothing beat `m` and the accumulator is returned unchanged, or the
result is the entry at an index `i` that beats `m`, is a global minimum of
the scanned suffix, and strictly beats every earlier index. -/
lemma quant_foldl_spec (r g b : Nat) :
    ∀ (l : List AnsiColor) (m : ℤ) (c : String),
      (l.foldl (quantStep r g b) (some m, c) = (some m, c) ∧ ∀ e ∈ l, m ≤ dist2 r g b e) ∨
      (∃ i, ∃ hi : i < l.length,
        l.foldl (quantStep r g b) (some m, c) =
          (some (dist2 r g b (l.get ⟨i, hi⟩)), (l.get ⟨i, hi⟩).code) ∧
        dist2 r g b (l.get ⟨i, hi⟩) < m ∧
        (∀ j (hj : j < l.length),
          dist2 r g b (l.get ⟨i, hi⟩) ≤ dist2 r g b (l.get ⟨j, hj⟩)) ∧
        (∀ j (hj : j < l.length), j < i →
          dist2 r g b (l.get ⟨i, hi⟩) < dist2 r g b (l.get ⟨j, hj⟩))) := by
  intro l
  induction l with
  | nil =>
    intro m c
    exact Or.inl ⟨rfl, by simp⟩
  | cons a l ih =>
    intro m c
    by_cases h : dist2 r g b a < m
    · have hstep : (a :: l).foldl (quantStep r g b) (some m, c)
          = l.foldl (quantStep r g b) (some (dist2 r g b a), a.code) := by
        simp [List.foldl_cons, quantStep, ltMin, h]
      rcases ih (dist2 r g b a) a.code with ⟨heq, hall⟩ | ⟨i, hi, heq, hlt, hmin, hfirst⟩
      · refine Or.inr ⟨0, by simp, ?_, h, ?_, ?_⟩
        · rw [hstep]; exact heq
        · intro j hj
          cases j with
          | zero => exact le_refl _
          | succ k => exact hall _ (List.get_mem l k (Nat.lt_of_succ_lt_succ hj))
        · intro j hj hj0
          exact absurd hj0 (Nat.not_lt_zero j)
      · refine Or.inr ⟨i + 1, Nat.succ_lt_succ hi, ?_, lt_trans hlt h, ?_, ?_⟩
        · rw [hstep]; exact heq
        · intro j hj
          cases j with
          | zero => exact le_of_lt hlt
          | succ k => exact hmin k (Nat.lt_of_succ_lt_succ hj)
        · intro j hj hjlt
          cases j with
          | zero => exact hlt
          | succ k => exact hfirst k (Nat.lt_of_succ_lt_succ hj) (Nat.lt_of_succ_lt_succ hjlt)
    · have hstep : (a :: l).foldl (quantStep r g b) (some m, c)
          = l.foldl (quantStep r g b) (some m, c) := by
        simp [List.foldl_cons, quantStep, ltMin, h]
      have hma : m ≤ dist2 r g b a := not_lt.mp h
      rcases ih m c with ⟨heq, hall⟩ | ⟨i, hi, heq, hlt, hmin, hfirst⟩
      · refine Or.inl ⟨by rw [hstep, heq], ?_⟩
        intro e he
        rcases List.mem_cons.mp he with rfl | he
        · exact hma
        · exact hall e he
      · refine Or.inr ⟨i + 1, Nat.succ_lt_succ hi, ?_, hlt, ?_, ?_⟩
        · rw [hstep]; exact heq
        · intro j hj
          cases j with
          | zero => exact le_of_lt (lt_of_lt_of_le hlt hma)
          | succ k => exact hmin k (Nat.lt_of_succ_lt_succ hj)
        · intro j hj hjlt
          cases j with
          | zero => exact lt_of_lt_of_le hlt hma
          | succ k => exact hfirst k (Nat.lt_of_succ_lt_succ hj) (Nat.lt_of_succ_lt_succ hjlt)

/-- C2: the quantizer scans the fixed 16-entry palette in declaration
order, keeps the entry with strictly smallest Euclidean distance seen so
far (so the earliest palette entry wins ties), and returns the winner's
escape code; with the spec's five concrete examples. -/
theorem rgb_to_ansi_spec :
    (∀ r g b : Fin 256, ∃ i : Fin ANSI_COLORS.length,
      rgb_to_ansi r.val g.val b.val = (ANSI_COLORS.get i).code ∧
      (∀ j : Fin ANSI_COLORS.length,
        dist2 r.val g.val b.val (ANSI_COLORS.get i) ≤
          dist2 r.val g.val b.val (ANSI_COLORS.get j)) ∧
      (∀ j : Fin ANSI_COLORS.length, (j : Nat) < (i : Nat) →
        dist2 r.val g.val b.val (ANSI_COLORS.get i) <
          dist2 r.val g.val b.val (ANSI_COLORS.get j))) ∧
    rgb_to_ansi 0 0 0 = "\x1b[30m" ∧
    rgb_to_ansi 255 255 255 = "\x1b[97m" ∧
    rgb_to_ansi 250 250 250 = "\x1b[97m" ∧
    rgb_to_ansi 255 0 0 = "\x1b[91m" ∧
    rgb_to_ansi 130 0 0 = "\x1b[31m" := by
  refine ⟨fun r g b => ?_, by decide, by decide, by decide, by decide, by decide⟩
  obtain ⟨a0, l0, hAC⟩ : ∃ a0 l0, ANSI_COLORS = a0 :: l0 := ⟨_, _, rfl⟩
  have hrw : rgb_to_ansi r.val g.val b.val
      = ((a0 :: l0).foldl (quantStep r.val g.val b.val) (none, a0.code)).2 := by
    unfold rgb_to_ansi
    rw [hAC]
    rfl
  have h0 : (a0 :: l0).foldl (quantStep r.val g.val b.val) (none, a0.code)
      = l0.foldl (quantStep r.val g.val b.val)
          (some (dist2 r.val g.val b.val a0), a0.code) := by
    simp [List.foldl_cons, quantStep, ltMin]
  rw [hAC]
  rcases quant_foldl_spec r.val g.val b.val l0 (dist2 r.val g.val b.val a0) a0.code
    with ⟨heq, hall⟩ | ⟨i, hi, heq, hlt, hmin, hfirst⟩
  · refine ⟨⟨0, Nat.succ_pos _⟩, ?_, ?_, ?_⟩
    · rw [hrw, h0]
      exact congrArg Prod.snd heq
    · intro j
      rcases j with ⟨jv, hj⟩
      cases jv with
      | zero => exact le_refl _
      | succ k => exact hall _ (List.get_mem l0 k (Nat.lt_of_succ_lt_succ hj))
    · intro j hj
      exact absurd hj (Nat.not_lt_zero _)
  · refine ⟨⟨i + 1, Nat.succ_lt_succ hi⟩, ?_, ?_, ?_⟩
    · rw [hrw, h0]
      exact congrArg Prod.snd heq
    · intro j
      rcases j with ⟨jv, hj⟩
      cases jv with
      | zero => exact le_of_lt hlt
      | succ k => exact hmin k (Nat.lt_of_succ_lt_succ hj)
    · intro j hj
      rcases j with ⟨jv, hjv⟩
      cases jv with
      | zero => exact hlt
      | succ k => exact hfirst k (Nat.lt_of_succ_lt_succ hjv) (Nat.lt_of_succ_lt_succ hj)

/-- Row-major grids built by the `for y { for x { push } }` loops: length,
row lengths, and entries. -/
lemma range_grid_spec (w h : Nat) (f : Nat → Nat → Char) :
    ((List.range h).map fun y => (List.range w).map fun x => f x y).length = h ∧
    (∀ row ∈ ((List.range h).map fun y => (List.range w).map fun x => f x y),
      row.length = w) ∧
    (∀ y x, y < h → x < w →
      ((((List.range h).map fun y => (List.range w).map fun x => f x y).getD y []).getD
        x ' ') = f x y) := by
  refine ⟨by simp, ?_, ?_⟩
  · intro row hrow
    simp only [List.mem_map] at hrow
    obtain ⟨y, _, rfl⟩ := hrow
    simp
  · intro y x hy hx
    simp [List.getD_eq_getElem?_getD, List.getElem?_map, List.getElem?_range, hy, hx]

/-- C5: both conversion paths fail with the `InvalidDimensions` message
"Image dimensions must be greater than zero." exactly when the input width
or height is zero (and produce no grid in that case); on positive
dimensions they return exactly `height` rows of exactly `width` characters
in row-major order, the entry at row `y`, column `x` being the mapping of
the source sample at `(x, y)`. -/
theorem grid_conversion_spec :
    (∀ gray : GrayImage,
      (convert_to_ascii gray = Except.error "Image dimensions must be greater than zero."
        ↔ gray.width = 0 ∨ gray.height = 0)) ∧
    (∀ (canny : GrayImage → GrayImage) (gray : GrayImage),
      (detect_and_convert canny gray
          = Except.error "Image dimensions must be greater than zero."
        ↔ gray.width = 0 ∨ gray.height = 0)) ∧
    (∀ gray : GrayImage, 0 < gray.width → 0 < gray.height →
      ∃ grid, convert_to_ascii gray = Except.ok grid ∧
        grid.length = gray.height ∧
        (∀ row ∈ grid, row.length = gray.width) ∧
        (∀ y x, y < gray.height → x < gray.width →
          (grid.getD y []).getD x ' ' = brightness_to_char (gray.pixel x y))) ∧
    (∀ (canny : GrayImage → GrayImage) (gray : GrayImage),
      0 < gray.width → 0 < gray.height →
      ∃ grid, detect_and_convert canny gray = Except.ok grid ∧
        grid.length = gray.height ∧
        (∀ row ∈ grid, row.length = gray.width) ∧
        (∀ y x, y < gray.height → x < gray.width →
          (grid.getD y []).getD x ' ' = edge_to_char ((canny gray).pixel x y))) := by
  refine ⟨?_, ?_, ?_, ?_⟩
  · intro gray
    constructor
    · intro h
      by_contra hne
      unfold convert_to_ascii at h
      rw [if_neg hne] at h
      exact Except.noConfusion h
    · intro h
      unfold convert_to_ascii
      rw [if_pos h]
  · intro canny gray
    constructor
    · intro h
      by_contra hne
      unfold detect_and_convert at h
      rw [if_neg hne] at h
      exact Except.noConfusion h
    · intro h
      unfold detect_and_convert
      rw [if_pos h]
  · intro gray hw hh
    have hcond : ¬ (gray.width = 0 ∨ gray.height = 0) := by omega
    obtain ⟨h1, h2, h3⟩ := range_grid_spec gray.width gray.height
      (fun x y => brightness_to_char (gray.pixel x y))
    refine ⟨_, ?_, h1, h2, h3⟩
    unfold convert_to_ascii
    rw [if_neg hcond]
  · intro canny gray hw hh
    have hcond : ¬ (gray.width = 0 ∨ gray.height = 0) := by omega
    obtain ⟨h1, h2, h3⟩ := range_grid_spec gray.width gray.height
      (fun x y => edge_to_char ((canny gray).pixel x y))
    refine ⟨_, ?_, h1, h2, h3⟩
    unfold detect_and_convert
    rw [if_neg hcond]

/-- Witness for C5 on a concrete 2×1 buffer. -/
theorem grid_conversion_spec_witness :
    ∃ grid, convert_to_ascii demoGray = Except.ok grid ∧
      grid.length = demoGray.height ∧
      (∀ row ∈ grid, row.length = demoGray.width) ∧
      (∀ y x, y < demoGray.height → x < demoGray.width →
        (grid.getD y []).getD x ' ' = brightness_to_char (demoGray.pixel x y)) :=
  grid_conversion_spec.2.2.1 demoGray (by decide) (by decide)

/-- Successful preprocessing: exact result dimensions under the external
collaborators' dimension contracts. -/
lemma preprocess_ok (resize : DynamicImage → Nat → Nat → DynamicImage)
    (grayscale : DynamicImage → GrayImage) (img : DynamicImage) (tw : Nat)
    (hres : ∀ i w h, (resize i w h).width = w ∧ (resize i w h).height = h)
    (hgray : ∀ i, (grayscale i).width = i.width ∧ (grayscale i).height = i.height)
    (hw : 0 < img.width) (hh : 0 < img.height) (htw : 0 < tw) :
    ∃ p, preprocess_image resize grayscale img tw = Except.ok p ∧
      p.gray.width = tw ∧ p.gray.height = target_height img.width img.height tw ∧
      p.original.width = tw ∧
      p.original.height = target_height img.width img.height tw := by
  have h0 : ¬ tw = 0 := by omega
  have h1 : ¬ (img.width = 0 ∨ img.height = 0) := by omega
  refine ⟨⟨grayscale (resize img tw (target_height img.width img.height tw)),
      resize img tw (target_height img.width img.height tw)⟩, ?_, ?_, ?_, ?_, ?_⟩
  · unfold preprocess_image
    rw [if_neg h0, if_neg h1]
  · exact ((hgray _).1).trans (hres _ _ _).1
  · exact ((hgray _).2).trans (hres _ _ _).2
  · exact (hres _ _ _).1
  · exact (hres _ _ _).2

/-- C3 counterexample: on a 100×1 source at target width 40 the code
returns buffers of height 1, while the claimed formula
`round(40·1/100/2) = round(0.2)` is 0; moreover the claimed exact-rational
formula disagrees with the code's `f32` computation even away from the
clamp: at a 596×4924 source and width 3725 the code computes 15387 while
the rational formula (clamped) gives 15388. -/
theorem preprocess_image_height_counterexample :
    (∃ p, preprocess_image demoResize demoGrayscale demoImage 40 = Except.ok p ∧
      p.gray.height = 1 ∧ p.original.height = 1) ∧
    spec_target_height 100 1 40 = 0 ∧
    target_height 596 4924 3725 = 15387 ∧
    max (spec_target_height 596 4924 3725) 1 = 15388 := by
  exact ⟨⟨demoProcessed, rfl, rfl, rfl⟩, by decide, by decide, by decide⟩

/-- C3 (amended): under the external resize/grayscale dimension contracts,
preprocessing a positive-dimension image at a positive target width
returns two co-sized buffers of dimensions exactly
`(tw, target_height ow oh tw)` — the `f32` evaluation of
`round(tw·oh/ow/2)` clamped below to 1 — and a zero target width or a zero
image dimension fails with an `InvalidDimensions` error before any
resize. -/
theorem preprocess_image_spec :
    ∀ (resize : DynamicImage → Nat → Nat → DynamicImage)
      (grayscale : DynamicImage → GrayImage) (img : DynamicImage) (tw : Nat),
      (∀ i w h, (resize i w h).width = w ∧ (resize i w h).height = h) →
      (∀ i, (grayscale i).width = i.width ∧ (grayscale i).height = i.height) →
      (0 < img.width → 0 < img.height → 0 < tw →
        ∃ p, preprocess_image resize grayscale img tw = Except.ok p ∧
          p.gray.width = tw ∧ p.gray.height = target_height img.width img.height tw ∧
          p.original.width = tw ∧
          p.original.height = target_height img.width img.height tw) ∧
      ((tw = 0 ∨ img.width = 0 ∨ img.height = 0) →
        ∃ m, preprocess_image resize grayscale img tw
          = Except.error (ImageLoaderError.InvalidDimensions m)) := by
  intro resize grayscale img tw hres hgray
  refine ⟨fun hw hh htw => preprocess_ok resize grayscale img tw hres hgray hw hh htw, ?_⟩
  intro h
  by_cases h0 : tw = 0
  · refine ⟨"Target width must be greater than zero.", ?_⟩
    unfold preprocess_image
    rw [if_pos h0]
  · have h1 : img.width = 0 ∨ img.height = 0 := by tauto
    refine ⟨"Input image has invalid dimensions.", ?_⟩
    unfold preprocess_image
    rw [if_neg h0, if_pos h1]

/-- Witness for C3 (amended) at the concrete 100×1 image and width 40. -/
theorem preprocess_image_spec_witness :
    ∃ p, preprocess_image demoResize demoGrayscale demoImage 40 = Except.ok p ∧
      p.gray.width = 40 ∧
      p.gray.height = target_height demoImage.width demoImage.height 40 ∧
      p.original.width = 40 ∧
      p.original.height = target_height demoImage.width demoImage.height 40 :=
  (preprocess_image_spec demoResize demoGrayscale demoImage 40
    (fun _ _ _ => ⟨rfl, rfl⟩) (fun _ => ⟨rfl, rfl⟩)).1 (by decide) (by decide) (by decide)

/-- The computed target height is always at least 1 (the `.max(1.0)`). -/
lemma one_le_target_height (ow oh tw : Nat) : 1 ≤ target_height ow oh tw := by
  unfold target_height
  exact Nat.le_min.mpr ⟨Nat.le_max_right _ _, by norm_num⟩

/-- C10: preprocessing clamps the target height to a minimum of 1, so for
every positive-dimension image and positive target width both buffers have
height ≥ 1 (and width `tw`), and the downstream zero-dimension
`InvalidDimensions` branches of both grid conversions are unreachable; in
particular at a 100×1 source and width 40 the unclamped rounded height
would be 0 while the code produces 1. -/
theorem preprocess_image_min_height :
    (∀ (resize : DynamicImage → Nat → Nat → DynamicImage)
       (grayscale : DynamicImage → GrayImage) (img : DynamicImage) (tw : Nat),
      (∀ i w h, (resize i w h).width = w ∧ (resize i w h).height = h) →
      (∀ i, (grayscale i).width = i.width ∧ (grayscale i).height = i.height) →
      0 < img.width → 0 < img.height → 0 < tw →
      ∃ p, preprocess_image resize grayscale img tw = Except.ok p ∧
        p.original.width = p.gray.width ∧ p.original.height = p.gray.height ∧
        p.gray.width = tw ∧ 1 ≤ p.gray.height ∧
        (∀ e, convert_to_ascii p.gray ≠ Except.error e) ∧
        (∀ canny e, detect_and_convert canny p.gray ≠ Except.error e)) ∧
    target_height 100 1 40 = 1 ∧ spec_target_height 100 1 40 = 0 := by
  refine ⟨?_, by decide, by decide⟩
  intro resize grayscale img tw hres hgray hw hh htw
  obtain ⟨p, hp, hgw, hgh, how, hoh⟩ :=
    preprocess_ok resize grayscale img tw hres hgray hw hh htw
  have hge : 1 ≤ p.gray.height := hgh ▸ one_le_target_height img.width img.height tw
  have hcond : ¬ (p.gray.width = 0 ∨ p.gray.height = 0) := by omega
  refine ⟨p, hp, by omega, by omega, hgw, hge, ?_, ?_⟩
  · intro e h
    unfold convert_to_ascii at h
    rw [if_neg hcond] at h
    exact Except.noConfusion h
  · intro canny e h
    unfold detect_and_convert at h
    rw [if_neg hcond] at h
    exact Except.noConfusion h

/-- Witness for C10 at the concrete 100×1 image and width 40. -/
theorem preprocess_image_min_height_witness :
    ∃ p, preprocess_image demoResize demoGrayscale demoImage 40 = Except.ok p ∧
      p.original.width = p.gray.width ∧ p.original.height = p.gray.height ∧
      p.gray.width = 40 ∧ 1 ≤ p.gray.height ∧
      (∀ e, convert_to_ascii p.gray ≠ Except.error e) ∧
      (∀ canny e, detect_and_convert canny p.gray ≠ Except.error e) :=
  preprocess_image_min_height.1 demoResize demoGrayscale demoImage 40
    (fun _ _ _ => ⟨rfl, rfl⟩) (fun _ => ⟨rfl, rfl⟩) (by decide) (by decide) (by decide)

/-- `String.join` over a cons. -/
lemma string_join_cons (s : String) (l : List String) :
    String.join (s :: l) = s ++ String.join l := by
  have key : ∀ (l : List String) (init : String),
      l.foldl (· ++ ·) init = init ++ String.join l := by
    intro l
    induction l with
    | nil =>
      intro init
      rw [List.foldl_nil, show String.join ([] : List String) = "" from rfl,
        String.append_empty]
    | cons a l ih =>
      intro init
      rw [List.foldl_cons, ih (init ++ a)]
      conv_rhs =>
        rw [show String.join (a :: l) = List.foldl (· ++ ·) ("" ++ a) l from rfl,
          String.empty_append, ih a]
      rw [String.append_assoc]
  calc String.join (s :: l) = List.foldl (· ++ ·) ("" ++ s) l := rfl
    _ = ("" ++ s) ++ String.join l := key l _
    _ = s ++ String.join l := by rw [String.empty_append]

/-- An append-accumulating left fold is the initial string followed by the
join of the per-element strings. -/
lemma foldl_append_join {α : Type} (f : α → String) :
    ∀ (l : List α) (init : String),
      l.foldl (fun acc x => acc ++ f x) init = init ++ String.join (l.map f) := by
  intro l
  induction l with
  | nil =>
    intro init
    rw [List.foldl_nil, List.map_nil, show String.join ([] : List String) = "" from rfl,
      String.append_empty]
  | cons a l ih =>
    intro init
    rw [List.foldl_cons, ih (init ++ f a), List.map_cons, string_join_cons,
      String.append_assoc]

/-- C7: the rendered stream is exactly, for each row top to bottom, the
concatenation over columns left to right of the quantized escape code of
the co-located source pixel immediately followed by the character (no
separator), then a full reset and a line break after each row, and one
additional full reset after the last row. -/
theorem render_colored_spec :
    ∀ (grid : AsciiGrid) (original : DynamicImage),
      grid ≠ [] →
      grid.length ≤ original.height →
      (∀ row ∈ grid, row.length ≤ original.width) →
      render_colored grid original =
        String.join (grid.enum.map (fun yrow =>
          String.join (yrow.2.enum.map (fun xch =>
            rgb_to_ansi (original.pixel xch.1 yrow.1).1
                (original.pixel xch.1 yrow.1).2.1
                (original.pixel xch.1 yrow.1).2.2
              ++ xch.2.toString))
          ++ RESET ++ "\n")) ++ RESET := by
  intro grid original hne hh hw
  unfold render_colored
  have hstep : ∀ (out : String), ∀ yrow ∈ grid.enum,
      (yrow.2.enum.foldl
        (fun out2 xch =>
          let p := original.pixel xch.1 yrow.1
          out2 ++ rgb_to_ansi p.1 p.2.1 p.2.2 ++ xch.2.toString)
        out) ++ RESET ++ "\n"
      = out ++ (String.join (yrow.2.enum.map (fun xch =>
          rgb_to_ansi (original.pixel xch.1 yrow.1).1
              (original.pixel xch.1 yrow.1).2.1
              (original.pixel xch.1 yrow.1).2.2
            ++ xch.2.toString)) ++ RESET ++ "\n") := by
    intro out yrow _
    have hin : (yrow.2.enum.foldl
        (fun out2 xch =>
          let p := original.pixel xch.1 yrow.1
          out2 ++ rgb_to_ansi p.1 p.2.1 p.2.2 ++ xch.2.toString)
        out)
        = out ++ String.join (yrow.2.enum.map (fun xch =>
            rgb_to_ansi (original.pixel xch.1 yrow.1).1
                (original.pixel xch.1 yrow.1).2.1
                (original.pixel xch.1 yrow.1).2.2
              ++ xch.2.toString)) := by
      have := foldl_append_join
        (fun xch : Nat × Char =>
          rgb_to_ansi (original.pixel xch.1 yrow.1).1
              (original.pixel xch.1 yrow.1).2.1
              (original.pixel xch.1 yrow.1).2.2
            ++ xch.2.toString)
        yrow.2.enum out
      rw [← this]
      apply List.foldl_ext
      intro acc xch _
      rw [String.append_assoc]
    rw [hin, String.append_assoc, String.append_assoc, String.append_assoc]
  rw [List.foldl_ext _ _ "" hstep, foldl_append_join, String.empty_append]

/-- Witness for C7 on a concrete 1×1 grid and color source. -/
theorem render_colored_spec_witness :
    render_colored [['a']] demoColorImage =
      String.join (([['a']] : AsciiGrid).enum.map (fun yrow =>
        String.join (yrow.2.enum.map (fun xch =>
          rgb_to_ansi (demoColorImage.pixel xch.1 yrow.1).1
              (demoColorImage.pixel xch.1 yrow.1).2.1
              (demoColorImage.pixel xch.1 yrow.1).2.2
            ++ xch.2.toString))
        ++ RESET ++ "\n")) ++ RESET :=
  render_colored_spec [['a']] demoColorImage (by simp) (by decide)
    (by intro row hrow; simp at hrow; subst hrow; decide)

/-- C9: when the image loads and preprocesses successfully but the mode is
neither "standard" nor "edge", the pipeline fails with exactly the message
naming the offending mode value and the two valid choices, the process
exit status is 1 (non-zero), and no grid output is produced. -/
theorem run_pipeline_unknown_mode :
    ∀ (load : String → Except ImageLoaderError DynamicImage)
      (resize : DynamicImage → Nat → Nat → DynamicImage)
      (grayscale : DynamicImage → GrayImage) (canny : GrayImage → GrayImage)
      (cli : Cli) (width : Nat) (image : DynamicImage) (processed : ProcessedImage),
      cli.mode ≠ "standard" → cli.mode ≠ "edge" →
      load cli.image_path = Except.ok image →
      preprocess_image resize grayscale image width = Except.ok processed →
      run_pipeline load resize grayscale canny cli width
        = Except.error ("Unknown mode '" ++ cli.mode ++ "'. Use 'standard' or 'edge'.") ∧
      main_exit_code (run_pipeline load resize grayscale canny cli width) = 1 ∧
      ∀ out, run_pipeline load resize grayscale canny cli width ≠ Except.ok out := by
  intro load resize grayscale canny cli width image processed hstd hedge hload hpre
  have hrun : run_pipeline load resize grayscale canny cli width
      = Except.error ("Unknown mode '" ++ cli.mode ++ "'. Use 'standard' or 'edge'.") := by
    unfold run_pipeline
    rw [hload]
    simp only []
    rw [hpre]
    simp only []
    rw [if_neg hedge, if_neg hstd]
  refine ⟨hrun, ?_, ?_⟩
  · rw [hrun]
    rfl
  intro out h
  rw [hrun] at h
  exact Except.noConfusion h

/-- Witness for C9 at a concrete loader, collaborators, and the CLI
invocation `--mode invalid`. -/
theorem run_pipeline_unknown_mode_witness :
    run_pipeline demoLoad demoResize demoGrayscale demoCanny demoCli 40
      = Except.error "Unknown mode 'invalid'. Use 'standard' or 'edge'." ∧
    main_exit_code (run_pipeline demoLoad demoResize demoGrayscale demoCanny demoCli 40) = 1 ∧
    ∀ out, run_pipeline demoLoad demoResize demoGrayscale demoCanny demoCli 40
      ≠ Except.ok out :=
  run_pipeline_unknown_mode demoLoad demoResize demoGrayscale demoCanny demoCli 40
    demoImage demoProcessed (by decide) (by decide) rfl rfl

end RatComputation

end AsciiArt
